import Mathlib

/-!
# mesos-cli: filter chain, task specification builder, endpoint rewriting

A shallow embedding of the parts of `subcommands.go`, `config/config.go` and
`commands/helpers.go` that decide how the `ps` filter chain is built, how
`exec` finishes a task specification, how profile options write the default
specification and how the agent endpoint is derived from the master endpoint.

Go pointers that may be nil are `Option`s, slices are `List`s, and a code path
that ends the process is an `Outcome` other than `done`.
-/

/-- Result of running a piece of command code: it returns a value, ends the
process with an exit code, or dereferences a nil pointer. -/
inductive Outcome (α : Type) where
  | done (a : α)
  | exit (code : Nat)
  | nilDeref
  deriving Repr

namespace commands

/-- helpers.go `failOnErr`: a non-nil error is printed and the process ends
with `os.Exit(2)`; with a nil error the code after the call runs. -/
def failOnErr {α : Type} (err : Option String) (rest : Outcome α) : Outcome α :=
  match err with
  | some _ => Outcome.exit 2
  | none => rest

end commands

namespace subcommands

open commands

/-- Lifecycle states of the Mesos `TaskState` enumeration. -/
inductive TaskState where
  | TASK_STAGING
  | TASK_STARTING
  | TASK_RUNNING
  | TASK_KILLING
  | TASK_FINISHED
  | TASK_FAILED
  | TASK_KILLED
  | TASK_ERROR
  | TASK_LOST
  | TASK_DROPPED
  | TASK_UNREACHABLE
  | TASK_GONE
  | TASK_GONE_BY_OPERATOR
  | TASK_UNKNOWN
  deriving DecidableEq, Repr

/-- The generated `String()` of the enumeration: the name of the value. -/
def TaskState.String : TaskState → String
  | .TASK_STAGING => "TASK_STAGING"
  | .TASK_STARTING => "TASK_STARTING"
  | .TASK_RUNNING => "TASK_RUNNING"
  | .TASK_KILLING => "TASK_KILLING"
  | .TASK_FINISHED => "TASK_FINISHED"
  | .TASK_FAILED => "TASK_FAILED"
  | .TASK_KILLED => "TASK_KILLED"
  | .TASK_ERROR => "TASK_ERROR"
  | .TASK_LOST => "TASK_LOST"
  | .TASK_DROPPED => "TASK_DROPPED"
  | .TASK_UNREACHABLE => "TASK_UNREACHABLE"
  | .TASK_GONE => "TASK_GONE"
  | .TASK_GONE_BY_OPERATOR => "TASK_GONE_BY_OPERATOR"
  | .TASK_UNKNOWN => "TASK_UNKNOWN"

/-- The fields of a task record that the `ps` filters read. -/
structure taskInfo where
  Name : String
  State : TaskState
  deriving Repr

/-- A filter is a predicate on a task record. -/
abbrev Filter := taskInfo → Bool

/-- The part of Go's `regexp` package that `ps` calls: `Compile` yields a
compiled expression or an error, `MatchString` reports whether a compiled
expression matches a string. -/
structure Regexp where
  Exp : Type
  Compile : String → Except String Exp
  MatchString : Exp → String → Bool

/-- The flags of `ps` that `Filters` reads. -/
structure PsFlags where
  name : String
  all : Bool
  running : Bool
  failed : Bool
  killed : Bool
  finished : Bool
  deriving Repr

/-- subcommands.go `stateFilter`: accepts the records whose state prints as
`name`. -/
def stateFilter (name : String) : Filter :=
  fun task => task.State.String == name

/-- The state predicates of lines 49-60: one is appended for each set flag. -/
def appendStates (f : PsFlags) (filters : List Filter) : List Filter :=
  let filters := if f.running then filters ++ [stateFilter "TASK_RUNNING"] else filters
  let filters := if f.failed then filters ++ [stateFilter "TASK_FAILED"] else filters
  let filters := if f.killed then filters ++ [stateFilter "TASK_KILLED"] else filters
  let filters := if f.finished then filters ++ [stateFilter "TASK_FINISHED"] else filters
  filters

/-- The part of `Filters` after the name pattern (lines 45-61). -/
def afterName (f : PsFlags) (filters : List Filter) : List Filter :=
  if f.all then filters ++ [fun _ => true]
  else appendStates f filters

/-- subcommands.go `Filters` of `ps`. When the pattern does not compile
`failOnErr` ends the process, so the code after it (where `exp` is nil) is not
reached. -/
def Filters (R : Regexp) (f : PsFlags) : Outcome (List Filter) :=
  if f.name ≠ "" then
    match R.Compile f.name with
    | .error e => failOnErr (some e) Outcome.nilDeref
    | .ok exp =>
      failOnErr none
        (Outcome.done (afterName f ([] ++ [fun task => R.MatchString exp task.Name])))
  else Outcome.done (afterName f [])

/-- Modelled from the spec: the evaluation of a chain (`Paginate`, which
applies the filters, is not among the sources): a record passes iff every
predicate in the chain returns true. -/
def passes (chain : List Filter) (t : taskInfo) : Bool :=
  chain.all (fun p => p t)

/-- The union reading of the state flags: the state is one of the states whose
flag is set. -/
def unionSelects (f : PsFlags) (s : TaskState) : Bool :=
  (f.running && decide (s = .TASK_RUNNING)) || (f.failed && decide (s = .TASK_FAILED)) ||
  (f.killed && decide (s = .TASK_KILLED)) || (f.finished && decide (s = .TASK_FINISHED))

/-- A fragment of Go's `regexp` covering the patterns made of letters and
digits only: such a pattern is a literal, and `MatchString` reports whether it
occurs somewhere in the string. The fragment rejects every other pattern;
among them is `(`, which `regexp.Compile` rejects too (missing closing
parenthesis). -/
def litRegexp : Regexp where
  Exp := List Char
  Compile := fun p =>
    if p.data.all Char.isAlphanum then Except.ok p.data
    else Except.error ("error parsing regexp: " ++ p)
  MatchString := fun e s => s.data.tails.any (fun tl => e.isPrefixOf tl)

end subcommands

/-! ## Task specification: the message types the builder writes -/

namespace mesos

/-- A float64 constant written as a decimal literal, `mantissa * 10 ^ exponent`;
the builder only stores such values. -/
structure Decimal where
  mantissa : Int
  exponent : Int
  deriving DecidableEq, Repr

inductive Value_Type where
  | SCALAR
  | RANGES
  | SET
  | TEXT
  deriving DecidableEq, Repr

/-- A closed range of uint64 values. -/
structure Value_Range where
  Begin : Nat
  End : Nat
  deriving DecidableEq, Repr

structure Resource where
  Name : String
  Type_ : Option Value_Type
  Role : Option String
  Scalar : Option Decimal
  Ranges : Option (List Value_Range)
  deriving DecidableEq, Repr

structure Environment_Variable where
  Name : String
  Value : String
  deriving DecidableEq, Repr

structure Parameter where
  Key : String
  Value : String
  deriving DecidableEq, Repr

/-- A container-engine port mapping; `HostPort` and `ContainerPort` are uint32
in the source. -/
structure PortMapping where
  HostPort : Nat
  ContainerPort : Nat
  Protocol : Option String
  deriving DecidableEq, Repr

structure Volume where
  ContainerPath : String
  HostPath : Option String
  ReadOnly : Bool
  deriving DecidableEq, Repr

inductive Network where
  | HOST
  | BRIDGE
  | NONE
  | USER
  deriving DecidableEq, Repr

inductive ContainerType where
  | DOCKER
  | MESOS
  deriving DecidableEq, Repr

/-- The container-engine descriptor `ContainerInfo_DockerInfo`. -/
structure DockerInfo where
  Image : String
  Network : Option Network
  PortMappings : List PortMapping
  Privileged : Option Bool
  Parameters : List Parameter
  ForcePullImage : Option Bool
  deriving DecidableEq, Repr

/-- The native container descriptor `ContainerInfo_MesosInfo`. -/
structure MesosInfo where
  Image : Option String
  deriving DecidableEq, Repr

structure ContainerInfo where
  Type_ : Option ContainerType
  Volumes : List Volume
  Docker : Option DockerInfo
  Mesos : Option MesosInfo
  deriving DecidableEq, Repr

structure Environment where
  Variables : List Environment_Variable
  deriving DecidableEq, Repr

structure CommandInfo where
  Environment : Option Environment
  Shell : Option Bool
  Value : Option String
  Arguments : List String
  User : Option String
  deriving DecidableEq, Repr

structure Label where
  Key : String
  Value : Option String
  deriving DecidableEq, Repr

structure TaskInfo where
  TaskID : String
  Command : Option CommandInfo
  Container : Option ContainerInfo
  Resources : List Resource
  Labels : Option (List Label)
  deriving DecidableEq, Repr

end mesos

/-! ## config/config.go -/

namespace config

open mesos

def OperatorAPIPath : String := "/api/v1"

def SchedulerAPIPath : String := "/api/v1/scheduler"

/-- Profile contains environment specific options. -/
structure Profile where
  Master : String
  TaskInfo : Option mesos.TaskInfo
  deriving DecidableEq, Repr

/-- config.go `defaults`; `uuid` stands for the fresh `uuid.NewV4().String()`. -/
def defaults (uuid : String) : Profile :=
  { Master := "http://localhost:5050"
    TaskInfo := some
      { TaskID := uuid
        Command := some
          { Environment := some { Variables := [] }
            Shell := none
            Value := none
            Arguments := []
            User := none }
        Container := some
          { Type_ := some ContainerType.MESOS
            Volumes := []
            Docker := none
            Mesos := none }
        Resources :=
          [ { Name := "cpus"
              Type_ := some Value_Type.SCALAR
              Role := some "*"
              Scalar := some { mantissa := 1, exponent := -1 }
              Ranges := none } ]
        Labels := some [] } }

/-- Options are functional profile options; applying one may dereference a nil
pointer of the profile. -/
abbrev Option_ := Profile → Outcome Profile

/-- config.go `Master`: specifies the Mesos master hostname. -/
def Master (master : String) : Option_ :=
  fun p => if master ≠ "" then Outcome.done { p with Master := master } else Outcome.done p

structure CommandOpts where
  Shell : Bool
  User : String
  Value : String
  Envs : List Environment_Variable
  deriving DecidableEq, Repr

/-- Go's `strings.Split(s, sep)` for a separator of one character, on the
characters of `s`: the pieces between the occurrences of `sep`. -/
def splitChars (sep : Char) : List Char → List (List Char)
  | [] => [[]]
  | c :: cs =>
    if c = sep then [] :: splitChars sep cs
    else
      match splitChars sep cs with
      | [] => [[c]]
      | w :: ws => (c :: w) :: ws

/-- The call `strings.Split(s, " ")` of `Command`. -/
def Split (s : String) : List String :=
  (splitChars ' ' s.data).map String.mk

/-- Lines 78-88 of `Command`: the user, the shell flag and the value, which
goes to `Value` for a shell command and is split into `Arguments` otherwise. -/
def commandFields (opts : CommandOpts) (c : CommandInfo) : CommandInfo :=
  let c := if opts.User ≠ "" then { c with User := some opts.User } else c
  let c := { c with Shell := some opts.Shell }
  if opts.Value ≠ "" then
    if opts.Shell then { c with Value := some opts.Value }
    else { c with Arguments := Split opts.Value }
  else c

/-- config.go `Command`: sets Mesos CommandInfo options. The environment is
dereferenced only when there is a variable to append. -/
def Command (opts : CommandOpts) : Option_ :=
  fun p =>
    match p.TaskInfo with
    | none => Outcome.nilDeref
    | some ti =>
      match ti.Command with
      | none => Outcome.nilDeref
      | some c =>
        let c := commandFields opts c
        if opts.Envs = [] then
          Outcome.done { p with TaskInfo := some { ti with Command := some c } }
        else
          match c.Environment with
          | none => Outcome.nilDeref
          | some e =>
            let vars := opts.Envs.foldl (fun vs env => vs ++ [env]) e.Variables
            let c := { c with Environment := some { Variables := vars } }
            Outcome.done { p with TaskInfo := some { ti with Command := some c } }

structure ContainerOpts where
  Docker : Bool
  Image : String
  Privileged : Bool
  ForcePullImage : Bool
  NetworkMode : Network
  Volumes : List Volume
  Parameters : List Parameter
  PortMappings : List PortMapping
  deriving DecidableEq, Repr

/-- config.go `portOffer`: a ports resource holding the single range
`[port, port]`; the uint32 port widens to uint64 without loss. -/
def portOffer (port : Nat) : Resource :=
  { Name := "ports"
    Type_ := some Value_Type.RANGES
    Role := some "*"
    Scalar := none
    Ranges := some [{ Begin := port, End := port }] }

/-- One iteration of the port mapping loop of `Container` (lines 126-131) on
the resource list and the descriptor. -/
def addMapping (st : List Resource × DockerInfo) (mapping : PortMapping) :
    List Resource × DockerInfo :=
  (st.1 ++ [portOffer mapping.HostPort],
   { st.2 with PortMappings := st.2.PortMappings ++ [mapping] })

/-- config.go `Container`. -/
def Container (opts : ContainerOpts) : Option_ :=
  fun p =>
    match p.TaskInfo with
    | none => if opts.Volumes = [] ∧ opts.Docker = false then Outcome.done p else Outcome.nilDeref
    | some ti =>
      match ti.Container with
      | none =>
        if opts.Volumes = [] ∧ opts.Docker = false then Outcome.done p else Outcome.nilDeref
      | some k =>
        let k := { k with Volumes := opts.Volumes.foldl (fun vs vol => vs ++ [vol]) k.Volumes }
        if opts.Docker = false then
          Outcome.done { p with TaskInfo := some { ti with Container := some k } }
        else
          let d : DockerInfo :=
            { Image := "", Network := none, PortMappings := [], Privileged := none,
              Parameters := [], ForcePullImage := none }
          let d := if opts.Image ≠ "" then { d with Image := opts.Image } else d
          let d := { d with Parameters := opts.Parameters.foldl (fun ps param => ps ++ [param]) d.Parameters }
          let st := opts.PortMappings.foldl addMapping (ti.Resources, d)
          let d := { st.2 with
            Network := some opts.NetworkMode
            Privileged := some opts.Privileged
            ForcePullImage := some opts.ForcePullImage }
          let k := { k with Type_ := some ContainerType.DOCKER, Docker := some d }
          Outcome.done { p with TaskInfo := some { ti with Resources := st.1, Container := some k } }

/-- config.go `TaskInfo`: replaces the task specification. -/
def TaskInfo (info : Option mesos.TaskInfo) : Option_ :=
  fun p => Outcome.done { p with TaskInfo := info }

/-- config.go `Profile.With`: applies the options in order to the profile. -/
def Profile.With (p : Profile) : List Option_ → Outcome Profile
  | [] => Outcome.done p
  | opt :: opts =>
    match opt p with
    | Outcome.done q => Profile.With q opts
    | Outcome.exit code => Outcome.exit code
    | Outcome.nilDeref => Outcome.nilDeref

/-- The fields of Go's `url.URL` that the endpoint code reads or writes. -/
structure URL where
  Scheme : String
  Host : String
  Path : String
  RawQuery : String
  Fragment : String
  deriving DecidableEq, Repr

/-- config.go `Profile.Endpoint`; `parse` is `url.Parse`, `none` being its nil
result on an error (the error itself is dropped by the source). The receiver is
a copy of the profile, which the method cannot write. -/
def Profile.Endpoint (parse : String → Option URL) (p : Profile) : Outcome URL :=
  match parse p.Master with
  | none => Outcome.nilDeref
  | some u => Outcome.done { u with Path := OperatorAPIPath }

/-- The environment variable list of a profile, empty where a pointer on the
way to it is nil. -/
def Profile.envs (p : Profile) : List Environment_Variable :=
  match (p.TaskInfo.bind (fun ti => ti.Command)).bind (fun c => c.Environment) with
  | some e => e.Variables
  | none => []

/-- The volume list of a profile. -/
def Profile.volumes (p : Profile) : List Volume :=
  match p.TaskInfo.bind (fun ti => ti.Container) with
  | some k => k.Volumes
  | none => []

/-- The resource list of a profile. -/
def Profile.resources (p : Profile) : List Resource :=
  match p.TaskInfo with
  | some ti => ti.Resources
  | none => []

/-- The container-engine descriptor of a profile, if there is one. -/
def Profile.docker (p : Profile) : Option DockerInfo :=
  (p.TaskInfo.bind (fun ti => ti.Container)).bind (fun k => k.Docker)

/-- The container-engine parameter list of a profile. -/
def Profile.dockerParameters (p : Profile) : List Parameter :=
  match p.docker with
  | some d => d.Parameters
  | none => []

/-- The container-engine port mapping list of a profile. -/
def Profile.dockerPortMappings (p : Profile) : List PortMapping :=
  match p.docker with
  | some d => d.PortMappings
  | none => []

/-- The invariant of the task specification on its command: the shell command
string (`Command.Value`) and the argv command (`Command.Arguments`) are not
both set. -/
def Profile.commandExclusive (p : Profile) : Bool :=
  match p.TaskInfo.bind (fun ti => ti.Command) with
  | some c => !(c.Value.isSome && !c.Arguments.isEmpty)
  | none => true

/-- The options a sequence for `With` is made of here. -/
inductive OptionKind where
  | master (m : String)
  | command (opts : CommandOpts)
  | container (opts : ContainerOpts)
  deriving Repr

/-- The option of config.go an `OptionKind` stands for. -/
def OptionKind.option : OptionKind → Option_
  | .master m => Master m
  | .command opts => Command opts
  | .container opts => Container opts

/-- What the options keep true of a profile built from the default one: the
pointers they dereference are set, and the form of the command that the shell
flag `shell` does not select is unset. -/
def Built (shell : Bool) (p : Profile) : Prop :=
  ∃ ti c e k, p.TaskInfo = some ti ∧ ti.Command = some c ∧ c.Environment = some e ∧
    ti.Container = some k ∧ (shell = true → c.Arguments = []) ∧ (shell = false → c.Value = none)

/-- A sample `url.Parse`: the master address of the default profile parses
into scheme `http` and host `localhost:5050`, no other address parses. -/
def parseLocal (s : String) : Option URL :=
  if s = "http://localhost:5050" then
    some { Scheme := "http", Host := "localhost:5050", Path := "", RawQuery := "", Fragment := "" }
  else none

end config

/-! ## commands/helpers.go: the agent caller -/

namespace commands

open config

/-- The fields of the agent record `NewAgentCaller` reads; `Port` is an
optional int32. -/
structure AgentInfo where
  Hostname : String
  Port : Option Int
  deriving DecidableEq, Repr

/-- The generated getter `GetPort`: the port, or the default 5051 when it is
not set. -/
def AgentInfo.GetPort (a : AgentInfo) : Int :=
  match a.Port with
  | some n => n
  | none => 5051

/-- helpers.go `NewAgentCaller`. A caller is represented by the endpoint it is
bound to. `callMaster` is the `GetAgents` call on a caller bound to the given
endpoint, `findAgent` the lookup of the agent with the given id in its
response. The profile is threaded through to show its final value. -/
def NewAgentCaller {Resp : Type} (parse : String → Option URL)
    (callMaster : URL → Except String Resp)
    (findAgent : Resp → String → Except String AgentInfo)
    (profile : Profile) (id : String) : Outcome (Profile × Except String URL) :=
  match profile.Endpoint parse with
  | Outcome.exit code => Outcome.exit code
  | Outcome.nilDeref => Outcome.nilDeref
  | Outcome.done masterEndpoint =>
    match callMaster masterEndpoint with
    | .error err => Outcome.done (profile, .error err)
    | .ok resp =>
      match findAgent resp id with
      | .error err => Outcome.done (profile, .error err)
      | .ok agent =>
        match profile.Endpoint parse with
        | Outcome.exit code => Outcome.exit code
        | Outcome.nilDeref => Outcome.nilDeref
        | Outcome.done endpoint =>
          let endpoint := { endpoint with Host := agent.Hostname ++ ":" ++ toString agent.GetPort }
          let endpoint := { endpoint with Path := "slave(1)" ++ OperatorAPIPath }
          Outcome.done (profile, .ok endpoint)

end commands

/-! ## subcommands.go: the build step of `exec` -/

namespace mesosproto

/-- The container-engine descriptor of the `mesosproto` package, whose scalar
fields are pointers. -/
structure DockerInfo where
  Image : Option String
  Privileged : Option Bool
  ForcePullImage : Option Bool
  Parameters : List mesos.Parameter
  PortMappings : List mesos.PortMapping
  deriving DecidableEq, Repr

structure ContainerInfo where
  Type_ : Option mesos.ContainerType
  Volumes : List mesos.Volume
  Docker : Option DockerInfo
  Mesos : Option mesos.MesosInfo
  deriving DecidableEq, Repr

structure CommandInfo where
  Value : Option String
  Shell : Option Bool
  User : Option String
  Arguments : List String
  Environment : List mesos.Environment_Variable
  deriving DecidableEq, Repr

structure TaskInfo where
  Name : Option String
  Command : Option CommandInfo
  Container : Option ContainerInfo
  Resources : List mesos.Resource
  deriving DecidableEq, Repr

end mesosproto

namespace subcommands

open mesosproto

/-- The flags and arguments of `exec` that its `Before` hook reads. -/
structure ExecFlags where
  arguments : List String
  taskPath : String
  parameters : List String
  image : String
  volumes : List String
  ports : List String
  envs : List String
  shell : String
  deriving DecidableEq, Repr

/-- A helper that writes the task through its pointer and returns an error
value: the task it leaves and the error, `none` being nil. -/
abbrev Setter (α : Type) := TaskInfo → α → TaskInfo × Option String

/-- The helpers `Before` calls that are defined outside `subcommands.go`. -/
structure Helpers where
  TaskFromJSON : Setter String
  setPorts : Setter (List String)
  setVolumes : Setter (List String)
  setParameters : Setter (List String)
  setEnvironment : Setter (List String)

/-- The loop of lines 195-197: each argument, preceded by a space
(`fmt.Sprintf(" %s", arg)`), is appended to the command value. -/
def appendArguments : List String → TaskInfo → Outcome TaskInfo
  | [], task => Outcome.done task
  | arg :: rest, task =>
    match task.Command with
    | none => Outcome.nilDeref
    | some c =>
      match c.Value with
      | none => Outcome.nilDeref
      | some v =>
        appendArguments rest
          { task with Command := some { c with Value := some (v ++ (" " ++ arg)) } }

/-- Lines 191-198 of `Before`: the shell string or the positional arguments. -/
def setCommand (f : ExecFlags) (task : TaskInfo) : Outcome TaskInfo :=
  if f.shell ≠ "" then
    match task.Command with
    | none => Outcome.nilDeref
    | some c =>
      Outcome.done { task with Command := some { c with Shell := some true, Value := some f.shell } }
  else appendArguments f.arguments task

/-- Lines 210-216 of `Before`: the containerizer is chosen from the image. -/
def setContainerizer (f : ExecFlags) (task : TaskInfo) : Outcome TaskInfo :=
  match task.Container with
  | none => Outcome.nilDeref
  | some k =>
    if f.image ≠ "" then
      match k.Docker with
      | none => Outcome.nilDeref
      | some d =>
        let k := { k with Mesos := none }
        let k := { k with Type_ := some mesos.ContainerType.DOCKER }
        let k := { k with Docker := some { d with Image := some f.image } }
        Outcome.done { task with Container := some k }
    else Outcome.done { task with Container := some { k with Docker := none } }

/-- Lines 219-222 of `Before`: with nothing to run the help is printed and the
process ends with `cli.Exit(1)`. -/
def checkRunnable (f : ExecFlags) (task : TaskInfo) : Outcome TaskInfo :=
  if f.image = "" ∧ f.taskPath = "" ∧ f.arguments.length = 0 ∧ f.shell = "" then Outcome.exit 1
  else Outcome.done task

/-- Lines 199-205 of `Before`: the specification file and the four setters,
each checked by `failOnErr`; `rest` is the code after them. -/
def applyHelpers (H : Helpers) (f : ExecFlags) (task : TaskInfo)
    (rest : TaskInfo → Outcome TaskInfo) : Outcome TaskInfo :=
  let loaded : TaskInfo × Option String :=
    if f.taskPath ≠ "" then H.TaskFromJSON task f.taskPath else (task, none)
  commands.failOnErr loaded.2 <|
    let r := H.setPorts loaded.1 f.ports
    commands.failOnErr r.2 <|
      let r := H.setVolumes r.1 f.volumes
      commands.failOnErr r.2 <|
        let r := H.setParameters r.1 f.parameters
        commands.failOnErr r.2 <|
          let r := H.setEnvironment r.1 f.envs
          commands.failOnErr r.2 (rest r.1)

/-- subcommands.go `cmd.Before` of `exec`, run on the task being built. -/
def Before (H : Helpers) (f : ExecFlags) (task : TaskInfo) : Outcome TaskInfo :=
  match setCommand f task with
  | Outcome.exit code => Outcome.exit code
  | Outcome.nilDeref => Outcome.nilDeref
  | Outcome.done task =>
    applyHelpers H f task fun task =>
      match setContainerizer f task with
      | Outcome.exit code => Outcome.exit code
      | Outcome.nilDeref => Outcome.nilDeref
      | Outcome.done task => checkRunnable f task

/-- The command value of a task, if the command and its value are set. -/
def commandValue (task : TaskInfo) : Option String :=
  task.Command.bind (fun c => c.Value)

/-- The shell flag of a task, if the command and the flag are set. -/
def commandShell (task : TaskInfo) : Option Bool :=
  task.Command.bind (fun c => c.Shell)

/-- The container-engine descriptor of a task, if there is one. -/
def dockerOf (task : TaskInfo) : Option DockerInfo :=
  task.Container.bind (fun k => k.Docker)

/-- The native container descriptor of a task, if there is one. -/
def mesosOf (task : TaskInfo) : Option mesos.MesosInfo :=
  task.Container.bind (fun k => k.Mesos)

/-- What a theorem about the command assumes of a setter on the list it is
given: it returns no error, writes neither the command value nor the shell
flag, and leaves a container descriptor in place. -/
def Setter.KeepsCommand {α : Type} (s : Setter α) (a : α) : Prop :=
  ∀ task : TaskInfo,
    (s task a).2 = none ∧
    commandValue (s task a).1 = commandValue task ∧
    commandShell (s task a).1 = commandShell task ∧
    ((s task a).1.Container.isSome = task.Container.isSome)

/-- The four setters of `Before` keep the command on the lists of `f`. -/
def Helpers.KeepCommand (H : Helpers) (f : ExecFlags) : Prop :=
  Setter.KeepsCommand H.setPorts f.ports ∧ Setter.KeepsCommand H.setVolumes f.volumes ∧
  Setter.KeepsCommand H.setParameters f.parameters ∧ Setter.KeepsCommand H.setEnvironment f.envs

/-- Helpers that leave the task as it is and return no error. -/
def idleHelpers : Helpers where
  TaskFromJSON := fun task _ => (task, none)
  setPorts := fun task _ => (task, none)
  setVolumes := fun task _ => (task, none)
  setParameters := fun task _ => (task, none)
  setEnvironment := fun task _ => (task, none)

/-- A task with the pointers `exec` dereferences when it registers its flags
(name, command user, container-engine descriptor) in place and an empty
command value. -/
def blankTask : TaskInfo :=
  { Name := some ""
    Command := some { Value := some "", Shell := some false, User := some "", Arguments := [], Environment := [] }
    Container := some
      { Type_ := some mesos.ContainerType.MESOS
        Volumes := []
        Docker := some { Image := none, Privileged := some false, ForcePullImage := some false, Parameters := [], PortMappings := [] }
        Mesos := some { Image := none } }
    Resources := [] }

/-- What the loop of `Before` builds from an empty value: every argument
preceded by one space, in order. -/
def spacePrefixed : List String → String
  | [] => ""
  | arg :: rest => (" " ++ arg) ++ spacePrefixed rest

/-- The words of the specification for the argv command: the arguments joined
by single spaces. -/
def spaceJoined (args : List String) : String :=
  " ".intercalate args

end subcommands

/-! ## Theorems -/

namespace subcommands

theorem stateString_eq_iff (s s' : TaskState) : (s.String == s'.String) = true ↔ s = s' := by
  cases s <;> cases s' <;> decide

theorem stateFilter_running (t : taskInfo) :
    stateFilter "TASK_RUNNING" t = true ↔ t.State = .TASK_RUNNING :=
  stateString_eq_iff t.State .TASK_RUNNING

theorem stateFilter_failed (t : taskInfo) :
    stateFilter "TASK_FAILED" t = true ↔ t.State = .TASK_FAILED :=
  stateString_eq_iff t.State .TASK_FAILED

theorem stateFilter_killed (t : taskInfo) :
    stateFilter "TASK_KILLED" t = true ↔ t.State = .TASK_KILLED :=
  stateString_eq_iff t.State .TASK_KILLED

theorem stateFilter_finished (t : taskInfo) :
    stateFilter "TASK_FINISHED" t = true ↔ t.State = .TASK_FINISHED :=
  stateString_eq_iff t.State .TASK_FINISHED

theorem passes_append (xs ys : List Filter) (t : taskInfo) :
    passes (xs ++ ys) t = (passes xs t && passes ys t) := by
  simp [passes, List.all_append]

theorem passes_appendStates (f : PsFlags) (filters : List Filter) (t : taskInfo) :
    passes (appendStates f filters) t = true ↔
      passes filters t = true ∧
      (f.running = true → t.State = .TASK_RUNNING) ∧
      (f.failed = true → t.State = .TASK_FAILED) ∧
      (f.killed = true → t.State = .TASK_KILLED) ∧
      (f.finished = true → t.State = .TASK_FINISHED) := by
  have h1 := stateFilter_running t
  have h2 := stateFilter_failed t
  have h3 := stateFilter_killed t
  have h4 := stateFilter_finished t
  unfold appendStates
  cases hr : f.running <;> cases hf : f.failed <;> cases hk : f.killed <;>
    cases hn : f.finished <;>
    simp [passes_append, passes, h1, h2, h3, h4, and_assoc] at *

end subcommands

namespace subcommands

theorem Filters_no_name (R : Regexp) (f : PsFlags) (hname : f.name = "") :
    Filters R f = Outcome.done (afterName f []) := by
  simp [Filters, hname]

theorem Filters_compiled (R : Regexp) (f : PsFlags) (exp : R.Exp) (hname : f.name ≠ "")
    (hc : R.Compile f.name = Except.ok exp) :
    Filters R f = Outcome.done (afterName f [fun task => R.MatchString exp task.Name]) := by
  simp [Filters, hname, hc, commands.failOnErr]

/-- With the all flag unset and no name pattern, `Filters` returns a chain, and
a record passes it iff its state is the state of every state flag that is
set. -/
theorem Filters_states_conjoined (R : Regexp) (f : PsFlags) (t : taskInfo)
    (hall : f.all = false) (hname : f.name = "") :
    ∃ chain, Filters R f = Outcome.done chain ∧
      (passes chain t = true ↔
        (f.running = true → t.State = .TASK_RUNNING) ∧
        (f.failed = true → t.State = .TASK_FAILED) ∧
        (f.killed = true → t.State = .TASK_KILLED) ∧
        (f.finished = true → t.State = .TASK_FINISHED)) := by
  refine ⟨afterName f [], Filters_no_name R f hname, ?_⟩
  simp only [afterName, hall, Bool.false_eq_true, if_false]
  rw [passes_appendStates]
  simp [passes]

/-- C1 (as amended): with the all flag unset, no name pattern and at most one
of the running/failed/killed/finished flags set, `Filters` returns a chain, and
a record passes it iff no state flag is set or its state is the state of the
flag that is set. -/
theorem Filters_single_state (R : Regexp) (f : PsFlags) (t : taskInfo)
    (hall : f.all = false) (hname : f.name = "")
    (hone : f.running.toNat + f.failed.toNat + f.killed.toNat + f.finished.toNat ≤ 1) :
    ∃ chain, Filters R f = Outcome.done chain ∧
      (passes chain t = true ↔
        (f.running = false ∧ f.failed = false ∧ f.killed = false ∧ f.finished = false) ∨
        unionSelects f t.State = true) := by
  obtain ⟨chain, hch, hp⟩ := Filters_states_conjoined R f t hall hname
  refine ⟨chain, hch, ?_⟩
  rw [hp]
  obtain ⟨name, all, running, failed, killed, finished⟩ := f
  revert hone
  cases running <;> cases failed <;> cases killed <;> cases finished <;>
    simp [unionSelects]

theorem Filters_single_state_witness :
    ∃ chain, Filters litRegexp ⟨"", false, false, true, false, false⟩ = Outcome.done chain ∧
      (passes chain ⟨"web", .TASK_FAILED⟩ = true ↔
        ((false : Bool) = false ∧ (true : Bool) = false ∧ (false : Bool) = false ∧
          (false : Bool) = false) ∨
        unionSelects ⟨"", false, false, true, false, false⟩ .TASK_FAILED = true) :=
  Filters_single_state litRegexp ⟨"", false, false, true, false, false⟩
    ⟨"web", .TASK_FAILED⟩ rfl rfl (by decide)

/-- C1 (counterexample): with running and failed both set, a TASK_FAILED
record is in the union of the selected states, yet it does not pass the chain
`Filters` returns; and with no state flag set a TASK_LOST record, which is in
no selected state, passes the chain. -/
theorem Filters_union_fails :
    (unionSelects ⟨"", false, true, true, false, false⟩ .TASK_FAILED = true ∧
      ∃ chain, Filters litRegexp ⟨"", false, true, true, false, false⟩ = Outcome.done chain ∧
        passes chain ⟨"web", .TASK_FAILED⟩ = false) ∧
    (unionSelects ⟨"", false, false, false, false, false⟩ .TASK_LOST = false ∧
      ∃ chain, Filters litRegexp ⟨"", false, false, false, false, false⟩ = Outcome.done chain ∧
        passes chain ⟨"web", .TASK_LOST⟩ = true) := by
  refine ⟨⟨by decide, _, Filters_no_name _ _ rfl, ?_⟩, ⟨by decide, _, Filters_no_name _ _ rfl, ?_⟩⟩ <;>
    decide

/-- C2 (as amended): when the all flag is set the state flags are not read.
Without a name pattern every record passes; with a pattern that compiles the
chain is the name predicate followed by an always-true predicate, and a record
passes iff the pattern matches its name. -/
theorem Filters_all (R : Regexp) (f : PsFlags) (t : taskInfo) (hall : f.all = true) :
    (f.name = "" → ∃ chain, Filters R f = Outcome.done chain ∧ passes chain t = true) ∧
    (∀ exp, f.name ≠ "" → R.Compile f.name = Except.ok exp →
      ∃ chain, Filters R f = Outcome.done chain ∧ chain.length = 2 ∧
        passes chain t = R.MatchString exp t.Name) := by
  constructor
  · intro hname
    exact ⟨_, Filters_no_name R f hname, by simp [afterName, hall, passes]⟩
  · intro exp hname hc
    exact ⟨_, Filters_compiled R f exp hname hc, by simp [afterName, hall],
      by simp [afterName, hall, passes]⟩

theorem Filters_all_witness :
    ∃ chain, Filters litRegexp ⟨"web", true, true, false, false, false⟩ = Outcome.done chain ∧
      chain.length = 2 ∧
      passes chain ⟨"webserver", .TASK_FAILED⟩ = litRegexp.MatchString "web".data "webserver" :=
  (Filters_all litRegexp ⟨"web", true, true, false, false, false⟩ ⟨"webserver", .TASK_FAILED⟩
    rfl).2 "web".data (by decide) rfl

/-- C2 (counterexample): with the all flag set and the name pattern `web`,
which compiles, the record named `db` does not pass the chain. -/
theorem Filters_all_name_rejects :
    (∃ exp, litRegexp.Compile "web" = Except.ok exp) ∧
    ∃ chain, Filters litRegexp ⟨"web", true, true, false, false, false⟩ = Outcome.done chain ∧
      passes chain ⟨"db", .TASK_RUNNING⟩ = false := by
  refine ⟨⟨"web".data, rfl⟩, _, Filters_compiled litRegexp _ "web".data (by decide) rfl, ?_⟩
  decide

/-- C7 (as amended): when the name pattern does not compile, `Filters` returns
no chain and `failOnErr` ends the process with exit code 2, the code it uses
for every error. -/
theorem Filters_bad_pattern_exits_2 (R : Regexp) (f : PsFlags) (e : String)
    (hname : f.name ≠ "") (hc : R.Compile f.name = Except.error e) :
    Filters R f = Outcome.exit 2 := by
  simp [Filters, hname, hc, commands.failOnErr]

theorem Filters_bad_pattern_exits_2_witness :
    Filters litRegexp ⟨"(", false, true, false, false, false⟩ = Outcome.exit 2 :=
  Filters_bad_pattern_exits_2 litRegexp ⟨"(", false, true, false, false, false⟩
    "error parsing regexp: (" (by decide) rfl

/-- C7 (counterexample): the pattern `(` does not compile, and building the
chain ends the process with exit code 2, not 1. -/
theorem Filters_bad_pattern_not_exit_1 :
    (∃ e, litRegexp.Compile "(" = Except.error e) ∧
    Filters litRegexp ⟨"(", false, true, false, false, false⟩ ≠ Outcome.exit 1 := by
  refine ⟨⟨"error parsing regexp: (", rfl⟩, ?_⟩
  have h : Filters litRegexp ⟨"(", false, true, false, false, false⟩ = Outcome.exit 2 := rfl
  rw [h]
  intro h1
  cases h1

end subcommands

namespace config

open mesos

theorem foldl_snoc {α : Type} (xs ys : List α) :
    xs.foldl (fun acc x => acc ++ [x]) ys = ys ++ xs := by
  induction xs generalizing ys with
  | nil => simp
  | cons x xs ih => simp [List.foldl_cons, ih]

theorem foldl_addMapping (ms : List PortMapping) (rs : List Resource) (d : DockerInfo) :
    ms.foldl addMapping (rs, d) =
      (rs ++ ms.map (fun m => portOffer m.HostPort),
       { d with PortMappings := d.PortMappings ++ ms }) := by
  induction ms generalizing rs d with
  | nil => simp
  | cons m ms ih => simp [List.foldl_cons, addMapping, ih]

/-- The profile `Container` returns when the engine is selected and the
pointers it dereferences are set. -/
theorem Container_docker_eq (opts : ContainerOpts) (p : Profile) (ti : mesos.TaskInfo)
    (k : ContainerInfo) (hti : p.TaskInfo = some ti) (hk : ti.Container = some k)
    (hd : opts.Docker = true) :
    Container opts p = Outcome.done
      { p with TaskInfo := some (
          { ti with
            Resources := ti.Resources ++ opts.PortMappings.map (fun m => portOffer m.HostPort)
            Container := some (
              { k with
                Type_ := some ContainerType.DOCKER
                Volumes := k.Volumes ++ opts.Volumes
                Docker := some (
                  { Image := opts.Image
                    Network := some opts.NetworkMode
                    PortMappings := opts.PortMappings
                    Privileged := some opts.Privileged
                    Parameters := opts.Parameters
                    ForcePullImage := some opts.ForcePullImage }) }) }) } := by
  unfold Container
  simp only [hti, hk, hd, foldl_snoc, foldl_addMapping]
  by_cases hi : opts.Image = "" <;> simp [hi]

end config

namespace config

open mesos

/-- C4: on a profile whose task specification and container descriptor are
set, `Container` with the container engine selected returns a profile whose
resource list is the previous list, unchanged, followed by one resource per
requested port mapping in request order, each named `ports`, of type RANGES,
with role `*` and the single range from the host port to the host port. On the
default specification the mapping 8080:31000 gives the 0.1-CPU resource
followed by one ports resource `[31000,31000]`. -/
theorem Container_port_resources (opts : ContainerOpts) (p : Profile) (ti : mesos.TaskInfo)
    (k : ContainerInfo) (hti : p.TaskInfo = some ti) (hk : ti.Container = some k)
    (hd : opts.Docker = true) :
    (∃ q, Container opts p = Outcome.done q ∧
      q.resources = ti.Resources ++ opts.PortMappings.map (fun m =>
        ({ Name := "ports", Type_ := some Value_Type.RANGES, Role := some "*", Scalar := none,
           Ranges := some [{ Begin := m.HostPort, End := m.HostPort }] } : Resource))) ∧
    (∀ uuid, ∃ q,
      Container
        { Docker := true, Image := "", Privileged := false, ForcePullImage := false,
          NetworkMode := Network.BRIDGE, Volumes := [], Parameters := [],
          PortMappings := [{ HostPort := 31000, ContainerPort := 8080, Protocol := none }] }
        (defaults uuid) = Outcome.done q ∧
      q.resources =
        [ { Name := "cpus", Type_ := some Value_Type.SCALAR, Role := some "*",
            Scalar := some { mantissa := 1, exponent := -1 }, Ranges := none },
          { Name := "ports", Type_ := some Value_Type.RANGES, Role := some "*", Scalar := none,
            Ranges := some [{ Begin := 31000, End := 31000 }] } ]) := by
  constructor
  · exact ⟨_, Container_docker_eq opts p ti k hti hk hd, by simp [Profile.resources, portOffer]⟩
  · intro uuid
    exact ⟨_, Container_docker_eq _ (defaults uuid) _ _ rfl rfl rfl,
      by simp [Profile.resources, portOffer]⟩

theorem Container_port_resources_witness :
    ∃ q, Container
        { Docker := true, Image := "nginx", Privileged := false, ForcePullImage := true,
          NetworkMode := Network.BRIDGE, Volumes := [], Parameters := [],
          PortMappings := [{ HostPort := 31000, ContainerPort := 8080, Protocol := none },
                           { HostPort := 31001, ContainerPort := 8443, Protocol := none }] }
        (defaults "t1") = Outcome.done q ∧
      q.resources =
        [ { Name := "cpus", Type_ := some Value_Type.SCALAR, Role := some "*",
            Scalar := some { mantissa := 1, exponent := -1 }, Ranges := none },
          { Name := "ports", Type_ := some Value_Type.RANGES, Role := some "*", Scalar := none,
            Ranges := some [{ Begin := 31000, End := 31000 }] },
          { Name := "ports", Type_ := some Value_Type.RANGES, Role := some "*", Scalar := none,
            Ranges := some [{ Begin := 31001, End := 31001 }] } ] :=
  (Container_port_resources _ (defaults "t1") _ _ rfl rfl rfl).1

end config

namespace config

open mesos

theorem commandFields_Environment (opts : CommandOpts) (c : CommandInfo) :
    (commandFields opts c).Environment = c.Environment := by
  unfold commandFields
  split_ifs <;> rfl

theorem Command_envs (opts : CommandOpts) (p q : Profile)
    (h : Command opts p = Outcome.done q) : q.envs = p.envs ++ opts.Envs := by
  unfold Command at h
  cases hti : p.TaskInfo with
  | none => simp [hti] at h
  | some ti =>
    cases hc : ti.Command with
    | none => simp [hti, hc] at h
    | some c =>
      simp only [hti, hc] at h
      by_cases he : opts.Envs = []
      · simp only [he, if_true] at h
        injection h with h
        subst h
        simp [Profile.envs, hti, hc, commandFields_Environment, he]
      · simp only [he, if_false] at h
        cases hx : (commandFields opts c).Environment with
        | none => simp [hx] at h
        | some e =>
          simp only [hx] at h
          injection h with h
          subst h
          rw [commandFields_Environment] at hx
          simp [Profile.envs, hti, hc, hx, foldl_snoc]

theorem Container_docker_lists (opts : ContainerOpts) (p q : Profile)
    (hd : opts.Docker = true) (h : Container opts p = Outcome.done q) :
    q.volumes = p.volumes ++ opts.Volumes ∧
    q.resources = p.resources ++ opts.PortMappings.map (fun m => portOffer m.HostPort) ∧
    q.dockerParameters = opts.Parameters ∧
    q.dockerPortMappings = opts.PortMappings := by
  cases hti : p.TaskInfo with
  | none => simp [Container, hti, hd] at h
  | some ti =>
    cases hk : ti.Container with
    | none => simp [Container, hti, hk, hd] at h
    | some k =>
      rw [Container_docker_eq opts p ti k hti hk hd] at h
      injection h with h
      subst h
      simp [Profile.volumes, Profile.resources, Profile.dockerParameters,
        Profile.dockerPortMappings, Profile.docker, hti, hk]

/-- C9 (as amended): applying an option a second time appends to the lists
kept outside the container-engine descriptor. After `Command a` then
`Command b` the environment variable list is its value after `a` followed by
the variables of `b`. After `Container a` then `Container b`, both selecting
the container engine, the volume list is its value after `a` followed by the
volumes of `b`, and the resource list is its value after `a` followed by one
ports resource per port mapping of `b`. -/
theorem reapply_lists (p pa pb : Profile) (a b : CommandOpts)
    (q qa qb : Profile) (c d : ContainerOpts)
    (_ha : Command a p = Outcome.done pa) (hb : Command b pa = Outcome.done pb)
    (_hc : Container c q = Outcome.done qa) (hd : Container d qa = Outcome.done qb)
    (_hcd : c.Docker = true) (hdd : d.Docker = true) :
    pb.envs = pa.envs ++ b.Envs ∧
    qb.volumes = qa.volumes ++ d.Volumes ∧
    qb.resources = qa.resources ++ d.PortMappings.map (fun m => portOffer m.HostPort) :=
  ⟨Command_envs b pa pb hb, (Container_docker_lists d qa qb hdd hd).1,
    (Container_docker_lists d qa qb hdd hd).2.1⟩

theorem reapply_lists_witness :
    ∃ pa pb qa qb : Profile,
      pb.envs = pa.envs ++ [⟨"B", "2"⟩] ∧
      qb.volumes = qa.volumes ++ [⟨"/data", some "/srv", false⟩] ∧
      qb.resources = qa.resources ++ [portOffer 31001] :=
  ⟨_, _, _, _,
    reapply_lists (defaults "t1") _ _ ⟨true, "", "echo hi", [⟨"A", "1"⟩]⟩ ⟨true, "", "", [⟨"B", "2"⟩]⟩
      (defaults "t1") _ _
      ⟨true, "nginx", false, false, Network.BRIDGE, [], [⟨"k1", "v1"⟩], [⟨31000, 8080, none⟩]⟩
      ⟨true, "nginx", false, false, Network.BRIDGE, [⟨"/data", some "/srv", false⟩],
        [⟨"k2", "v2"⟩], [⟨31001, 8443, none⟩]⟩
      rfl rfl rfl rfl rfl rfl⟩

/-- C9 (counterexample): after `Container a` with the parameter `k1=v1` and
the mapping 8080:31000, then `Container b` with the parameter `k2=v2` and the
mapping 8443:31001, both selecting the container engine, the parameter list of
the descriptor is `[k2=v2]` and its port mapping list is `[8443:31001]`: they
are not the lists of `a` followed by those of `b`. -/
theorem reapply_descriptor_lists_replaced :
    ∃ qa qb : Profile,
      Container ⟨true, "nginx", false, false, Network.BRIDGE, [], [⟨"k1", "v1"⟩],
        [⟨31000, 8080, none⟩]⟩ (defaults "t1") = Outcome.done qa ∧
      Container ⟨true, "nginx", false, false, Network.BRIDGE, [], [⟨"k2", "v2"⟩],
        [⟨31001, 8443, none⟩]⟩ qa = Outcome.done qb ∧
      qb.dockerParameters = [⟨"k2", "v2"⟩] ∧
      qb.dockerParameters ≠ [⟨"k1", "v1"⟩] ++ [⟨"k2", "v2"⟩] ∧
      qb.dockerPortMappings = [⟨31001, 8443, none⟩] ∧
      qb.dockerPortMappings ≠ [⟨31000, 8080, none⟩] ++ [⟨31001, 8443, none⟩] := by
  refine ⟨_, _, rfl, rfl, ?_, ?_, ?_, ?_⟩ <;> decide

theorem Built_defaults (shell : Bool) (uuid : String) : Built shell (defaults uuid) :=
  ⟨_, _, _, _, rfl, rfl, rfl, rfl, fun _ => rfl, fun _ => rfl⟩

theorem Built_commandExclusive (shell : Bool) (p : Profile) (h : Built shell p) :
    p.commandExclusive = true := by
  obtain ⟨ti, c, e, k, hti, hc, _, _, h1, h2⟩ := h
  cases shell with
  | true => simp [Profile.commandExclusive, hti, hc, h1 rfl]
  | false => simp [Profile.commandExclusive, hti, hc, h2 rfl]

theorem commandFields_Arguments (opts : CommandOpts) (c : CommandInfo) :
    (commandFields opts c).Arguments =
      if opts.Value ≠ "" ∧ opts.Shell = false then Split opts.Value else c.Arguments := by
  unfold commandFields
  by_cases hv : opts.Value = "" <;> by_cases hu : opts.User = "" <;>
    cases hs : opts.Shell <;> simp [hv, hu]

theorem commandFields_Value (opts : CommandOpts) (c : CommandInfo) :
    (commandFields opts c).Value =
      if opts.Value ≠ "" ∧ opts.Shell = true then some opts.Value else c.Value := by
  unfold commandFields
  by_cases hv : opts.Value = "" <;> by_cases hu : opts.User = "" <;>
    cases hs : opts.Shell <;> simp [hv, hu]

theorem Built_step (shell : Bool) (p : Profile) (o : OptionKind) (h : Built shell p)
    (ho : ∀ opts, o = OptionKind.command opts → opts.Value ≠ "" → opts.Shell = shell) :
    ∃ q, o.option p = Outcome.done q ∧ Built shell q := by
  obtain ⟨ti, c, e, k, hti, hc, he, hk, h1, h2⟩ := h
  cases o with
  | master m =>
    by_cases hm : m = ""
    · exact ⟨p, by simp [OptionKind.option, Master, hm], ti, c, e, k, hti, hc, he, hk, h1, h2⟩
    · exact ⟨{ p with Master := m }, by simp [OptionKind.option, Master, hm],
        ti, c, e, k, hti, hc, he, hk, h1, h2⟩
  | container opts =>
    by_cases hd : opts.Docker = true
    · exact ⟨_, Container_docker_eq opts p ti k hti hk hd, _, c, e, _, rfl, hc, he, rfl, h1, h2⟩
    · simp only [Bool.not_eq_true] at hd
      refine ⟨{ p with TaskInfo := some { ti with Container := some ({ k with Volumes := opts.Volumes.foldl (fun vs vol => vs ++ [vol]) k.Volumes }) } },
        ?_, _, c, e, _, rfl, hc, he, rfl, h1, h2⟩
      simp only [OptionKind.option, Container, hti, hk, hd, if_true]
  | command opts =>
    have hs := ho opts rfl
    have henv : (commandFields opts c).Environment = some e := by
      rw [commandFields_Environment, he]
    have hA : shell = true → (commandFields opts c).Arguments = [] := by
      intro hsh
      rw [commandFields_Arguments, if_neg]
      · exact h1 hsh
      · rintro ⟨hv, hf⟩
        rw [hs hv, hsh] at hf
        cases hf
    have hV : shell = false → (commandFields opts c).Value = none := by
      intro hsh
      rw [commandFields_Value, if_neg]
      · exact h2 hsh
      · rintro ⟨hv, hf⟩
        rw [hs hv, hsh] at hf
        cases hf
    by_cases hE : opts.Envs = []
    · refine ⟨{ p with TaskInfo := some { ti with Command := some (commandFields opts c) } },
        ?_, _, _, e, k, rfl, rfl, henv, hk, hA, hV⟩
      simp only [OptionKind.option, Command, hti, hc, hE, if_true]
    · refine ⟨{ p with TaskInfo := some { ti with Command := some ({ commandFields opts c with Environment := some ({ Variables := opts.Envs.foldl (fun vs env => vs ++ [env]) e.Variables }) }) } },
        ?_, _, _, _, k, rfl, rfl, rfl, hk, hA, hV⟩
      simp only [OptionKind.option, Command, hti, hc, hE, if_false, henv]

theorem Built_With (shell : Bool) (ks : List OptionKind) (p : Profile) (h : Built shell p)
    (hks : ∀ opts, OptionKind.command opts ∈ ks → opts.Value ≠ "" → opts.Shell = shell) :
    ∃ q, p.With (ks.map OptionKind.option) = Outcome.done q ∧ Built shell q := by
  induction ks generalizing p with
  | nil => exact ⟨p, rfl, h⟩
  | cons o ks ih =>
    obtain ⟨q, hq, hB⟩ := Built_step shell p o h
      (fun opts ho => hks opts (by rw [ho]; exact List.mem_cons_self _ _))
    obtain ⟨r, hr, hB2⟩ := ih q hB (fun opts hm => hks opts (List.mem_cons_of_mem _ hm))
    exact ⟨r, by simp only [List.map_cons, Profile.With, hq, hr], hB2⟩

/-- C8 (as amended): for every profile obtained from the default profile by
applying, with `With`, a finite sequence of Master, Command and Container
options in which all Command options with a non-empty value carry the same
Shell flag, the options all return and the task specification has at most one
of the shell command string and the argv command set. `Command` writes the
form its Shell flag selects and never clears the other one. -/
theorem With_commandExclusive (uuid : String) (shell : Bool) (ks : List OptionKind)
    (hks : ∀ opts, OptionKind.command opts ∈ ks → opts.Value ≠ "" → opts.Shell = shell) :
    ∃ q, (defaults uuid).With (ks.map OptionKind.option) = Outcome.done q ∧
      q.commandExclusive = true := by
  obtain ⟨q, hq, hB⟩ := Built_With shell ks (defaults uuid) (Built_defaults shell uuid) hks
  exact ⟨q, hq, Built_commandExclusive shell q hB⟩

theorem With_commandExclusive_witness :
    ∃ q, (defaults "t1").With
        ([OptionKind.master "http://10.0.0.5:5050",
          OptionKind.command ⟨true, "root", "echo hi", []⟩,
          OptionKind.command ⟨true, "", "ls -l", []⟩].map OptionKind.option) = Outcome.done q ∧
      q.commandExclusive = true :=
  With_commandExclusive "t1" true
    [OptionKind.master "http://10.0.0.5:5050",
     OptionKind.command ⟨true, "root", "echo hi", []⟩,
     OptionKind.command ⟨true, "", "ls -l", []⟩]
    (by
      intro opts hm _
      simp only [List.mem_cons, OptionKind.command.injEq, List.mem_singleton, reduceCtorEq,
        false_or, List.not_mem_nil, or_false] at hm
      rcases hm with h | h <;> rw [h])

/-- C8 (counterexample): from the default profile, a shell Command option with
value `echo hi` followed by a non-shell Command option with value `ls -l`
leaves both the shell command string and the argv command set. -/
theorem With_both_commands_set :
    ∃ q ti c, (defaults "t1").With
        [Command ⟨true, "", "echo hi", []⟩, Command ⟨false, "", "ls -l", []⟩] = Outcome.done q ∧
      q.TaskInfo = some ti ∧ ti.Command = some c ∧
      c.Value = some "echo hi" ∧ c.Arguments = ["ls", "-l"] ∧
      q.commandExclusive = false := by
  refine ⟨_, _, _, rfl, rfl, rfl, ?_, ?_, ?_⟩ <;> decide

end config

namespace commands

open config

/-- C10: when the master address of the profile parses as a URL, the master
answers and the agent is resolved, the endpoint of the agent caller has the
scheme of the master endpoint, the network location `h:n` made of the
hostname of the agent and the decimal form of its port, and the path
`slave(1)/api/v1`; the profile is left as it was, and `Endpoint` on it yields
again the network location of the master with the path `/api/v1`. -/
theorem NewAgentCaller_endpoint {Resp : Type} (parse : String → Option URL)
    (callMaster : URL → Except String Resp)
    (findAgent : Resp → String → Except String AgentInfo)
    (profile : Profile) (id : String) (u : URL) (resp : Resp) (agent : AgentInfo)
    (hp : parse profile.Master = some u)
    (hm : callMaster { u with Path := "/api/v1" } = Except.ok resp)
    (ha : findAgent resp id = Except.ok agent) :
    ∃ endpoint q,
      NewAgentCaller parse callMaster findAgent profile id = Outcome.done (q, Except.ok endpoint) ∧
      endpoint.Scheme = u.Scheme ∧
      endpoint.Host = agent.Hostname ++ ":" ++ toString agent.GetPort ∧
      endpoint.Path = "slave(1)" ++ "/api/v1" ∧
      q = profile ∧
      q.Endpoint parse =
        Outcome.done
          { Scheme := u.Scheme, Host := u.Host, Path := "/api/v1", RawQuery := u.RawQuery,
            Fragment := u.Fragment } := by
  have hE : profile.Endpoint parse = Outcome.done { u with Path := "/api/v1" } := by
    simp [Profile.Endpoint, hp, OperatorAPIPath]
  refine ⟨{ Scheme := u.Scheme, Host := agent.Hostname ++ ":" ++ toString agent.GetPort,
            Path := "slave(1)" ++ "/api/v1", RawQuery := u.RawQuery, Fragment := u.Fragment },
    profile, ?_, rfl, rfl, rfl, rfl, hE⟩
  simp only [NewAgentCaller, hE, hm, ha, OperatorAPIPath]

theorem NewAgentCaller_endpoint_witness :
    ∃ endpoint q,
      NewAgentCaller parseLocal (fun _ => (Except.ok () : Except String Unit))
        (fun _ _ => Except.ok ⟨"agent7.local", some 5051⟩) (defaults "t1") "S1" =
          Outcome.done (q, Except.ok endpoint) ∧
      endpoint.Scheme = "http" ∧
      endpoint.Host = "agent7.local" ++ ":" ++ toString (AgentInfo.GetPort ⟨"agent7.local", some 5051⟩) ∧
      endpoint.Path = "slave(1)" ++ "/api/v1" ∧
      q = defaults "t1" ∧
      q.Endpoint parseLocal =
        Outcome.done
          { Scheme := "http", Host := "localhost:5050", Path := "/api/v1", RawQuery := "",
            Fragment := "" } :=
  NewAgentCaller_endpoint parseLocal (fun _ => (Except.ok () : Except String Unit))
    (fun _ _ => Except.ok ⟨"agent7.local", some 5051⟩) (defaults "t1") "S1"
    ⟨"http", "localhost:5050", "", "", ""⟩ () ⟨"agent7.local", some 5051⟩ rfl rfl rfl

end commands

namespace subcommands

open mesosproto

theorem failOnErr_done {α : Type} (err : Option String) (rest : Outcome α) (a : α)
    (h : commands.failOnErr err rest = Outcome.done a) : rest = Outcome.done a := by
  cases err with
  | none => exact h
  | some e => simp [commands.failOnErr] at h

theorem applyHelpers_done (H : Helpers) (f : ExecFlags) (task t' : TaskInfo)
    (rest : TaskInfo → Outcome TaskInfo) (h : applyHelpers H f task rest = Outcome.done t') :
    ∃ t, rest t = Outcome.done t' := by
  unfold applyHelpers at h
  exact ⟨_, failOnErr_done _ _ _ (failOnErr_done _ _ _ (failOnErr_done _ _ _
    (failOnErr_done _ _ _ (failOnErr_done _ _ _ h))))⟩

theorem setContainerizer_done (f : ExecFlags) (t t' : TaskInfo)
    (h : setContainerizer f t = Outcome.done t') :
    t'.Command = t.Command ∧
    (f.image ≠ "" → mesosOf t' = none ∧
      ∃ k d, t'.Container = some k ∧ k.Type_ = some mesos.ContainerType.DOCKER ∧
        k.Docker = some d ∧ d.Image = some f.image) ∧
    (f.image = "" → dockerOf t' = none) := by
  unfold setContainerizer at h
  cases hk : t.Container with
  | none => simp [hk] at h
  | some k =>
    simp only [hk] at h
    by_cases hi : f.image = ""
    · simp only [hi, ne_eq, not_true_eq_false, if_false] at h
      injection h with h
      subst h
      simp [hi, dockerOf]
    · simp only [ne_eq, hi, not_false_eq_true, if_true] at h
      cases hd : k.Docker with
      | none => simp [hd] at h
      | some d =>
        simp only [hd] at h
        injection h with h
        subst h
        simp [hi, mesosOf]

theorem checkRunnable_done (f : ExecFlags) (t t' : TaskInfo)
    (h : checkRunnable f t = Outcome.done t') : t' = t := by
  unfold checkRunnable at h
  split_ifs at h
  injection h with h
  exact h.symm

/-- The end of `Before`, after the helpers: the containerizer and the check
that there is something to run. -/
theorem finish_done (f : ExecFlags) (t t' : TaskInfo)
    (h : (match setContainerizer f t with
      | Outcome.exit code => Outcome.exit code
      | Outcome.nilDeref => Outcome.nilDeref
      | Outcome.done task => checkRunnable f task) = Outcome.done t') :
    setContainerizer f t = Outcome.done t' := by
  cases hs : setContainerizer f t with
  | exit code => simp [hs] at h
  | nilDeref => simp [hs] at h
  | done t1 =>
    simp only [hs] at h
    rw [checkRunnable_done f t1 t' h]

/-- C3: whenever the `Before` hook of `exec` completes, a non-empty image flag
leaves the specification without native container descriptor, with container
type DOCKER and with that image in its container-engine descriptor; an empty
image flag leaves it without container-engine descriptor; in both cases the
two descriptors are not both present. -/
theorem Before_containerizer (H : Helpers) (f : ExecFlags) (task t' : TaskInfo)
    (h : Before H f task = Outcome.done t') :
    (f.image ≠ "" → mesosOf t' = none ∧
      ∃ k d, t'.Container = some k ∧ k.Type_ = some mesos.ContainerType.DOCKER ∧
        k.Docker = some d ∧ d.Image = some f.image) ∧
    (f.image = "" → dockerOf t' = none) ∧
    ¬ ((mesosOf t').isSome = true ∧ (dockerOf t').isSome = true) := by
  unfold Before at h
  cases hs : setCommand f task with
  | exit code => simp [hs] at h
  | nilDeref => simp [hs] at h
  | done t0 =>
    simp only [hs] at h
    obtain ⟨t, ht⟩ := applyHelpers_done H f t0 t' _ h
    obtain ⟨_, h1, h2⟩ := setContainerizer_done f t t' (finish_done f t t' ht)
    refine ⟨h1, h2, ?_⟩
    by_cases hi : f.image = ""
    · simp [h2 hi]
    · simp [(h1 hi).1]

theorem Before_containerizer_witness :
    ∃ t', Before idleHelpers ⟨["-g"], "", [], "nginx", [], [], [], ""⟩ blankTask =
        Outcome.done t' ∧
      (mesosOf t' = none ∧
        ∃ k d, t'.Container = some k ∧ k.Type_ = some mesos.ContainerType.DOCKER ∧
          k.Docker = some d ∧ d.Image = some "nginx") ∧
      ¬ ((mesosOf t').isSome = true ∧ (dockerOf t').isSome = true) :=
  ⟨_, rfl,
    (Before_containerizer idleHelpers ⟨["-g"], "", [], "nginx", [], [], [], ""⟩ blankTask _
      rfl).1 (by decide),
    (Before_containerizer idleHelpers ⟨["-g"], "", [], "nginx", [], [], [], ""⟩ blankTask _
      rfl).2.2⟩

theorem applyHelpers_keep (H : Helpers) (f : ExecFlags) (t : TaskInfo)
    (rest : TaskInfo → Outcome TaskInfo) (hp : f.taskPath = "") (hH : H.KeepCommand f) :
    ∃ t4, applyHelpers H f t rest = rest t4 ∧ commandValue t4 = commandValue t ∧
      commandShell t4 = commandShell t ∧ t4.Container.isSome = t.Container.isSome := by
  obtain ⟨h1, h2, h3, h4⟩ := hH
  obtain ⟨e1, v1, s1, k1⟩ := h1 t
  obtain ⟨e2, v2, s2, k2⟩ := h2 (H.setPorts t f.ports).1
  obtain ⟨e3, v3, s3, k3⟩ := h3 (H.setVolumes (H.setPorts t f.ports).1 f.volumes).1
  obtain ⟨e4, v4, s4, k4⟩ :=
    h4 (H.setParameters (H.setVolumes (H.setPorts t f.ports).1 f.volumes).1 f.parameters).1
  refine ⟨_, ?_, v4.trans (v3.trans (v2.trans v1)), s4.trans (s3.trans (s2.trans s1)),
    k4.trans (k3.trans (k2.trans k1))⟩
  simp only [applyHelpers, hp, ne_eq, not_true_eq_false, if_false, commands.failOnErr, e1, e2,
    e3, e4]

theorem appendArguments_eq (args : List String) (task : TaskInfo) (c : CommandInfo)
    (v : String) (hc : task.Command = some c) (hv : c.Value = some v) :
    appendArguments args task =
      Outcome.done { task with Command := some { c with Value := some (v ++ spacePrefixed args) } } := by
  induction args generalizing task c v with
  | nil =>
    simp only [appendArguments, spacePrefixed, String.append_empty]
    cases task
    cases c
    simp_all
  | cons arg rest ih =>
    simp only [appendArguments, hc, hv]
    rw [ih _ _ (v ++ (" " ++ arg)) rfl rfl]
    simp [spacePrefixed, String.append_assoc]

/-- C5: for a non-empty shell string and any positional arguments, with no
specification file and no image, on a task whose command and container
pointers are set and with setters that return no error and do not write the
command, `Before` completes with a specification whose shell flag is true,
whose command value is exactly the shell string and which has no
container-engine descriptor. -/
theorem Before_shell (H : Helpers) (f : ExecFlags) (task : TaskInfo) (c : CommandInfo)
    (k : ContainerInfo) (hs : f.shell ≠ "") (hp : f.taskPath = "") (hi : f.image = "")
    (hc : task.Command = some c) (hk : task.Container = some k) (hH : H.KeepCommand f) :
    ∃ t', Before H f task = Outcome.done t' ∧ commandShell t' = some true ∧
      commandValue t' = some f.shell ∧ dockerOf t' = none := by
  obtain ⟨t4, h4, v4, s4, k4⟩ := applyHelpers_keep H f
    { task with Command := some { c with Shell := some true, Value := some f.shell } }
    (fun task =>
      match setContainerizer f task with
      | Outcome.exit code => Outcome.exit code
      | Outcome.nilDeref => Outcome.nilDeref
      | Outcome.done task => checkRunnable f task) hp hH
  cases hk4 : t4.Container with
  | none => simp [hk4, hk] at k4
  | some k' =>
    refine ⟨{ t4 with Container := some { k' with Docker := none } }, ?_, ?_, ?_, ?_⟩
    · have hB : Before H f task = applyHelpers H f
          { task with Command := some { c with Shell := some true, Value := some f.shell } }
          (fun task =>
            match setContainerizer f task with
            | Outcome.exit code => Outcome.exit code
            | Outcome.nilDeref => Outcome.nilDeref
            | Outcome.done task => checkRunnable f task) := by
        simp only [Before, setCommand, hs, ne_eq, not_false_eq_true, if_true, hc]
      rw [hB, h4]
      simp [setContainerizer, hk4, hi, checkRunnable, hs]
    · simpa [commandShell] using s4
    · simpa [commandValue] using v4
    · simp [dockerOf]

theorem Before_shell_witness :
    ∃ t', Before idleHelpers ⟨["ignored", "words"], "", [], "", [], [], [], "echo hi"⟩ blankTask =
        Outcome.done t' ∧
      commandShell t' = some true ∧ commandValue t' = some "echo hi" ∧ dockerOf t' = none :=
  Before_shell idleHelpers ⟨["ignored", "words"], "", [], "", [], [], [], "echo hi"⟩ blankTask
    _ _ (by decide) rfl rfl rfl rfl
    ⟨fun _ => ⟨rfl, rfl, rfl, rfl⟩, fun _ => ⟨rfl, rfl, rfl, rfl⟩,
     fun _ => ⟨rfl, rfl, rfl, rfl⟩, fun _ => ⟨rfl, rfl, rfl, rfl⟩⟩

/-- C6 (as amended): with an empty shell string and no specification file, on
a task whose command value is empty and with setters that return no error and
do not write the command, whenever `Before` completes the command value is
every argument preceded by one space, in order: the arguments joined by single
spaces after one leading space (for `echo`, `hi` the value is ` echo hi`), and
empty when there is no argument. With no image and the container pointer set
it completes when there is an argument and ends the process with exit code 1
when there is none. -/
theorem Before_arguments (H : Helpers) (f : ExecFlags) (task : TaskInfo) (c : CommandInfo)
    (hs : f.shell = "") (hp : f.taskPath = "") (hc : task.Command = some c)
    (hv : c.Value = some "") (hH : H.KeepCommand f) :
    (∀ t', Before H f task = Outcome.done t' →
      commandValue t' = some (spacePrefixed f.arguments)) ∧
    (f.image = "" → f.arguments ≠ [] → task.Container.isSome = true →
      ∃ t', Before H f task = Outcome.done t') ∧
    (f.image = "" → f.arguments = [] → task.Container.isSome = true →
      Before H f task = Outcome.exit 1) ∧
    spacePrefixed ["echo", "hi"] = " echo hi" ∧ spacePrefixed [] = "" := by
  obtain ⟨t4, h4, v4, _, k4⟩ := applyHelpers_keep H f
    { task with Command := some { c with Value := some ("" ++ spacePrefixed f.arguments) } }
    (fun task =>
      match setContainerizer f task with
      | Outcome.exit code => Outcome.exit code
      | Outcome.nilDeref => Outcome.nilDeref
      | Outcome.done task => checkRunnable f task) hp hH
  have hB : Before H f task =
      (match setContainerizer f t4 with
        | Outcome.exit code => Outcome.exit code
        | Outcome.nilDeref => Outcome.nilDeref
        | Outcome.done task => checkRunnable f task) := by
    rw [← h4]
    simp only [Before, setCommand, hs, ne_eq, not_true_eq_false, if_false,
      appendArguments_eq f.arguments task c "" hc hv]
  have hval : commandValue t4 = some (spacePrefixed f.arguments) := by
    rw [v4]
    simp [commandValue]
  refine ⟨?_, ?_, ?_, by decide, rfl⟩
  · intro t' h
    rw [hB] at h
    have hc' := (setContainerizer_done f t4 t' (finish_done f t4 t' h)).1
    rw [← hval]
    simp [commandValue, hc']
  · intro hi hargs hk
    cases hk4 : t4.Container with
    | none => simp [hk4, hk] at k4
    | some k' =>
      refine ⟨{ t4 with Container := some { k' with Docker := none } }, ?_⟩
      rw [hB]
      simp [setContainerizer, hk4, hi, checkRunnable, hargs]
  · intro hi hargs hk
    cases hk4 : t4.Container with
    | none => simp [hk4, hk] at k4
    | some k' =>
      rw [hB]
      simp [setContainerizer, hk4, hi, checkRunnable, hargs, hs, hp]

theorem Before_arguments_witness :
    ∃ t', Before idleHelpers ⟨["echo", "hi"], "", [], "", [], [], [], ""⟩ blankTask =
        Outcome.done t' ∧
      commandValue t' = some (spacePrefixed ["echo", "hi"]) :=
  ⟨_, rfl,
    (Before_arguments idleHelpers ⟨["echo", "hi"], "", [], "", [], [], [], ""⟩ blankTask
      _ rfl rfl rfl rfl
      ⟨fun _ => ⟨rfl, rfl, rfl, rfl⟩, fun _ => ⟨rfl, rfl, rfl, rfl⟩,
       fun _ => ⟨rfl, rfl, rfl, rfl⟩, fun _ => ⟨rfl, rfl, rfl, rfl⟩⟩).1 _ rfl⟩

/-- C6 (counterexample): for the arguments `echo`, `hi` on a new task with an
empty command value, `Before` completes with the command value ` echo hi`,
which has a space before the first argument and is not the arguments joined by
single spaces, `echo hi`. -/
theorem Before_arguments_leading_space :
    ∃ t', Before idleHelpers ⟨["echo", "hi"], "", [], "", [], [], [], ""⟩ blankTask =
        Outcome.done t' ∧
      commandValue t' = some " echo hi" ∧
      spaceJoined ["echo", "hi"] = "echo hi" ∧
      commandValue t' ≠ some (spaceJoined ["echo", "hi"]) := by
  refine ⟨_, rfl, ?_, ?_, ?_⟩ <;> decide

end subcommands
